import Mathlib

/-!
Verification of the MCSR Ranked Stats Viewer core against its specification.

The Python source is shallowly embedded: dictionaries coming from the remote
API become structures of `Option` fields (a `none` field is an absent key),
Python `None` becomes `Option.none`, dictionary access `data['k']` on a
possibly-absent key becomes an `Option.bind` (so a failed construction is
`none` where Python raises `KeyError`), millisecond times are `Int` (or `ℚ`
where Python mixes them with floats), and Python's stable `list.sort` is
`List.insertionSort`, which is also stable for the same total preorders.
-/

namespace MCSR

/-- One entry of the raw `players` array of an API match payload
(`src/src/core/match.py`).  Every field is read with `dict.get`, hence
optional. -/
structure RawPlayer where
  nickname : Option String
  uuid : Option String
  eloRate : Option Int
  eloChange : Option Int
deriving DecidableEq

/-- The raw `result` object of an API match payload. -/
structure RawResult where
  uuid : Option String
  time : Option Int
deriving DecidableEq

/-- A raw API match payload as read by `Match.__init__`.  Fields accessed by
subscript (`data['id']`, `data['date']`, `data['category']`,
`data['forfeited']`, `data['season']`) raise `KeyError` when absent; all other
fields are read with `dict.get` and default when absent.  The `seed` value is
itself a dictionary, modelled as an association list so that Python's
truthiness test (`if seed and isinstance(seed, dict)`) can see whether it is
empty. -/
structure RawData where
  id : Option Int
  date : Option Int
  category : Option String
  forfeited : Option Bool
  seed : Option (List (String × String))
  seedID : Option String
  seedType : Option String
  type : Option Int
  season : Option Int
  players : Option (List RawPlayer)
  result : Option RawResult
deriving DecidableEq

/-- One entry of `Match.players` as built by the constructor. -/
structure PlayerInfo where
  nickname : String
  uuid : Option String
  elo_rate : Option Int
  elo_change : Option Int
deriving DecidableEq

/-- One value of the `Match.segments` mapping, as populated by
`fetch_segment_data` in `src/mcsr_stats.py`: every populated segment carries
both an `absolute_time` and a `split_time`.  Times are `ℚ` because the
forecaster mixes them with float percentiles. -/
structure SegData where
  absolute_time : ℚ
  split_time : ℚ
deriving DecidableEq

/-- The normalized match record built by `Match.__init__`
(`src/src/core/match.py`).  `datetime_obj` is omitted: it is
`fromtimestamp(date)`, a strictly monotone function of `date`, and every
consumer comparison on it is a comparison on `date`. -/
structure Match where
  id : Int
  analyzed_username : Option String
  date : Int
  category : String
  forfeited : Bool
  seed_id : String
  seed_type : String
  season : Int
  match_type : Int
  player_count : Nat
  players : List PlayerInfo
  winner : Option String
  winner_time : Option Int
  user_uuid : Option String
  user_player_info : Option RawPlayer
  is_user_win : Option Bool
  is_draw : Bool
  match_time : Option Int
  user_completed : Bool
  segments : List (String × SegData)
  has_detailed_data : Bool
deriving DecidableEq

/-- Python truthiness of an optional string: `None` and `''` are falsy. -/
def strTruthy : Option String → Bool
  | some s => s ≠ ""
  | none => false

/-- `data.get('result') or {}`: a missing (or empty, hence falsy) result
behaves as the empty dictionary. -/
def resultOf (data : RawData) : RawResult :=
  data.result.getD ⟨none, none⟩

/-- The completion derivation at the end of `Match.__init__`
(`src/src/core/match.py` lines 85-111), verbatim branch for branch:
given the already-derived outcome fields it produces
`(match_time, user_completed)`. -/
def completionOf (is_user_win : Option Bool) (is_draw : Bool) (forfeited : Bool)
    (player_count : Nat) (winner_time : Option Int) : Option Int × Bool :=
  if is_user_win = some true ∧ ¬forfeited then (winner_time, true)
  else if is_user_win = some true ∧ forfeited then (winner_time, false)
  else if is_user_win = some false then (none, false)
  else if is_draw then (winner_time, false)
  else if player_count = 1 ∧ ¬forfeited then (winner_time, true)
  else if player_count = 1 ∧ forfeited then (winner_time, false)
  else (none, false)

/-- Python `str.lower`, character by character.  (Lean's `String.toLower` is
the same `Char.toLower` map, but its byte-position implementation does not
reduce in the kernel, so the list-of-characters form is used.) -/
def pyLower (s : String) : String := ⟨s.data.map Char.toLower⟩

/-- Whether a raw player matches the analyzed username
(`if analyzed_username and player.get('nickname', '').lower() == analyzed_username.lower()`). -/
def userMatches (analyzed_username : Option String) (p : RawPlayer) : Bool :=
  match analyzed_username with
  | some u => u ≠ "" && pyLower (p.nickname.getD "") == pyLower u
  | none => false

/-- The body of `Match.__init__` after the five required keys have been read
successfully.  Each derivation follows the source line by line. -/
def mkMatchCore (data : RawData) (analyzed_username : Option String)
    (id : Int) (date : Int) (category : String) (forfeited : Bool)
    (season : Int) : Match :=
  let seed_id : String :=
    match data.seed with
    | some sd =>
        if sd ≠ [] then (sd.lookup "seedID").getD "unknown"
        else data.seedID.getD "unknown"
    | none => data.seedID.getD "unknown"
  let seed_type := data.seedType.getD "unknown"
  let match_type := data.type.getD 1
  let players_list := data.players.getD []
  let player_count := players_list.length
  let players : List PlayerInfo := players_list.map fun p =>
    { nickname := p.nickname.getD "Unknown"
      uuid := p.uuid
      elo_rate := p.eloRate
      elo_change := p.eloChange }
  -- the loop reassigns user_uuid / user_player_info for every matching
  -- player, so the last matching player wins
  let user_player_info := (players_list.filter (userMatches analyzed_username)).getLast?
  let user_uuid := user_player_info.bind RawPlayer.uuid
  let result := resultOf data
  let winner_uuid := result.uuid
  let winner_time := result.time
  let winner : Option String :=
    if strTruthy winner_uuid then
      (players.find? fun p => p.uuid == winner_uuid).map PlayerInfo.nickname
    else none
  let iw_draw : Option Bool × Bool :=
    if strTruthy user_uuid && strTruthy winner_uuid then
      (some (user_uuid == winner_uuid), false)
    else if strTruthy user_uuid && winner_uuid.isNone && !forfeited then
      (none, true)
    else (none, false)
  let is_user_win := iw_draw.1
  let is_draw := iw_draw.2
  let mtuc := completionOf is_user_win is_draw forfeited player_count winner_time
  { id := id
    analyzed_username := analyzed_username
    date := date
    category := category
    forfeited := forfeited
    seed_id := seed_id
    seed_type := seed_type
    season := season
    match_type := match_type
    player_count := player_count
    players := players
    winner := winner
    winner_time := winner_time
    user_uuid := user_uuid
    user_player_info := user_player_info
    is_user_win := is_user_win
    is_draw := is_draw
    match_time := mtuc.1
    user_completed := mtuc.2
    segments := []
    has_detailed_data := false }

/-- `Match.__init__`: the five subscript accesses (`id`, `date`, `category`,
`forfeited`, `season`) raise `KeyError` when the key is absent, modelled as
`Option.bind`; everything else never raises. -/
def mkMatch (data : RawData) (analyzed_username : Option String) : Option Match :=
  data.id.bind fun id =>
  data.date.bind fun date =>
  data.category.bind fun category =>
  data.forfeited.bind fun forfeited =>
  data.season.bind fun season =>
  some (mkMatchCore data analyzed_username id date category forfeited season)

/-- The spec's completion table, written from the spec's words: rows are
checked top to bottom ("user won, not forfeited", "user won, forfeited",
"user lost", "draw", "solo match, not forfeited", "solo match, forfeited",
"none of the above"), each row giving `(match_time, user_completed)`. -/
def specCompletionTable (is_user_win : Option Bool) (is_draw : Bool)
    (forfeited : Bool) (player_count : Nat) (winner_time : Option Int) :
    Option Int × Bool :=
  if is_user_win = some true ∧ forfeited = false then (winner_time, true)
  else if is_user_win = some true ∧ forfeited = true then (winner_time, false)
  else if is_user_win = some false then (none, false)
  else if is_draw = true then (winner_time, false)
  else if player_count = 1 ∧ forfeited = false then (winner_time, true)
  else if player_count = 1 ∧ forfeited = true then (winner_time, false)
  else (none, false)

/-- `RateLimitTracker` (`src/src/core/rate_limiter.py`): the request ledger is
a deque of timestamps, oldest first.  The wall clock (`time.time()`) is passed
explicitly as `now`. -/
structure RateLimitTracker where
  max_requests : Nat
  window_seconds : Int
  requests : List Int
deriving DecidableEq

/-- `RateLimitTracker.__init__(max_requests, window_minutes)`. -/
def RateLimitTracker.init (max_requests : Nat) (window_minutes : Int) :
    RateLimitTracker :=
  ⟨max_requests, window_minutes * 60, []⟩

/-- The eviction loop shared by `can_make_request` and friends:
`while self.requests and self.requests[0] < now - self.window_seconds:
self.requests.popleft()`. -/
def RateLimitTracker.evict (now : Int) (s : RateLimitTracker) :
    RateLimitTracker :=
  { s with requests := s.requests.dropWhile fun t =>
      decide (t < now - s.window_seconds) }

/-- `can_make_request` evicts stale timestamps (a mutation, so the updated
tracker is returned alongside the answer) and compares the remaining count to
the cap. -/
def RateLimitTracker.can_make_request (now : Int) (s : RateLimitTracker) :
    Bool × RateLimitTracker :=
  let s' := s.evict now
  (decide (s'.requests.length < s.max_requests), s')

/-- `record_request` appends the current time to the ledger. -/
def RateLimitTracker.record_request (now : Int) (s : RateLimitTracker) :
    RateLimitTracker :=
  { s with requests := s.requests ++ [now] }

/-- The tracker obtained from a fresh one after a sequence of
`record_request` calls at the given timestamps. -/
def RateLimitTracker.afterRecords (max_requests : Nat) (window_minutes : Int)
    (ts : List Int) : RateLimitTracker :=
  ts.foldl (fun s t => s.record_request t)
    (RateLimitTracker.init max_requests window_minutes)

/-- `SpeedrunForecaster._calculate_percentile`
(`src/src/utils/speedrun_forecast.py`): linear-interpolation percentile of a
list of values.  `int(index)` is `Int.floor` here because in the branch where
it is taken `0 < percentile < 100`, so `index ≥ 0` and Python's
truncation-toward-zero agrees with floor. -/
def calculate_percentile (data : List ℚ) (percentile : ℚ) : ℚ :=
  if data = [] then 0
  else
    let sorted_data := data.insertionSort (· ≤ ·)
    let n := sorted_data.length
    if percentile ≤ 0 then sorted_data.headI
    else if 100 ≤ percentile then sorted_data.getLastD 0
    else
      let index : ℚ := percentile / 100 * ((n : ℚ) - 1)
      let lower_index : ℕ := (⌊index⌋).toNat
      let upper_index : ℕ := min (lower_index + 1) (n - 1)
      if lower_index = upper_index then sorted_data.getD lower_index 0
      else
        let weight : ℚ := index - (lower_index : ℚ)
        sorted_data.getD lower_index 0 * (1 - weight) +
          sorted_data.getD upper_index 0 * weight

/-- The full keyword-argument set of `MCSRAnalyzer.filter_matches`
(`src/mcsr_stats.py`), with the source's defaults.  `date_from`/`date_to`
compare `datetime_obj`; since `datetime_obj = fromtimestamp(date)` is strictly
monotone, they are epoch seconds here. -/
structure FilterParams where
  completed_only : Bool := false
  user_completed : Option Bool := none
  include_draws : Bool := true
  include_forfeits : Bool := true
  include_wins : Bool := true
  include_losses : Bool := true
  require_time : Bool := false
  min_time_ms : Option Int := none
  max_time_ms : Option Int := none
  include_private_rooms : Bool := true
  match_types : Option (List Int) := none
  max_player_count : Option Nat := none
  seasons : Option (List Int) := none
  seed_types : Option (List String) := none
  has_detailed_data : Option Bool := none
  require_user_identified : Bool := false
  date_from : Option Int := none
  date_to : Option Int := none
  sort_by : String := "date"
  sort_descending : Bool := true

/-- `if flag: filtered = [m for m in filtered if p(m)]` — a filter applied
only when a boolean option is set. -/
def condFilter (b : Bool) (p : Match → Bool) (l : List Match) : List Match :=
  if b then l.filter p else l

/-- `if param is not None: filtered = [m for m in filtered if p(param, m)]` —
a filter applied only when an optional parameter is supplied. -/
def optFilter {β : Type} (o : Option β) (p : β → Match → Bool)
    (l : List Match) : List Match :=
  match o with
  | some v => l.filter (p v)
  | none => l

/-- `MCSRAnalyzer._apply_completion_filters`. -/
def apply_completion_filters (ps : FilterParams) (ms : List Match) :
    List Match :=
  let filtered := ms
  let filtered := condFilter ps.completed_only
    (fun m => m.user_completed && m.match_time.isSome &&
      !m.is_draw && !m.forfeited) filtered
  let filtered := optFilter ps.user_completed
    (fun uc m => m.user_completed == uc) filtered
  let filtered := condFilter (!ps.include_draws) (fun m => !m.is_draw) filtered
  let filtered := condFilter (!ps.include_forfeits)
    (fun m => !m.forfeited) filtered
  let filtered := condFilter (!ps.include_wins)
    (fun m => m.is_user_win != some true) filtered
  let filtered := condFilter (!ps.include_losses)
    (fun m => m.is_user_win != some false) filtered
  filtered

/-- `MCSRAnalyzer._apply_time_filters`: the bounds only admit records with a
non-null `match_time`. -/
def apply_time_filters (ps : FilterParams) (ms : List Match) :
    List Match :=
  let filtered := ms
  let filtered := condFilter ps.require_time
    (fun m => m.match_time.isSome) filtered
  let filtered := optFilter ps.min_time_ms
    (fun v m => match m.match_time with
      | some t => decide (v ≤ t)
      | none => false) filtered
  let filtered := optFilter ps.max_time_ms
    (fun v m => match m.match_time with
      | some t => decide (t ≤ v)
      | none => false) filtered
  filtered

/-- `MCSRAnalyzer._apply_match_type_filters`. -/
def apply_match_type_filters (ps : FilterParams) (ms : List Match) :
    List Match :=
  let filtered := ms
  let filtered := condFilter (!ps.include_private_rooms)
    (fun m => !(m.match_type == 3 || decide (2 < m.player_count))) filtered
  let filtered := optFilter ps.match_types
    (fun ts m => ts.contains m.match_type) filtered
  let filtered := optFilter ps.max_player_count
    (fun k m => decide (m.player_count ≤ k)) filtered
  let filtered := condFilter ps.require_user_identified
    (fun m => m.user_uuid.isSome || m.player_count == 1) filtered
  let filtered := optFilter ps.has_detailed_data
    (fun b m => m.has_detailed_data == b) filtered
  filtered

/-- `MCSRAnalyzer._apply_categorical_filters`. -/
def apply_categorical_filters (ps : FilterParams) (ms : List Match) :
    List Match :=
  let filtered := ms
  let filtered := optFilter ps.seasons
    (fun ss m => ss.contains m.season) filtered
  let filtered := optFilter ps.seed_types
    (fun ss m => ss.contains m.seed_type) filtered
  filtered

/-- `MCSRAnalyzer._apply_date_filters` (inclusive bounds). -/
def apply_date_filters (ps : FilterParams) (ms : List Match) :
    List Match :=
  let filtered := ms
  let filtered := optFilter ps.date_from
    (fun d m => decide (d ≤ m.date)) filtered
  let filtered := optFilter ps.date_to
    (fun d m => decide (m.date ≤ d)) filtered
  filtered

/-- The sort key used for `sort_by='time'`:
`m.match_time if m.match_time is not None else float('inf')`. -/
def timeKey (m : Match) : WithTop Int :=
  match m.match_time with
  | some t => (t : WithTop Int)
  | none => ⊤

/-- Ascending date order (stable sort key `x.date`). -/
def dateLE (a b : Match) : Prop := a.date ≤ b.date

/-- Descending date order (stable sort key `x.date`, `reverse=True`). -/
def dateGE (a b : Match) : Prop := b.date ≤ a.date

/-- Ascending time order with nulls mapped to infinity. -/
def timeLE (a b : Match) : Prop := timeKey a ≤ timeKey b

/-- Descending time order with nulls mapped to infinity. -/
def timeGE (a b : Match) : Prop := timeKey b ≤ timeKey a

/-- Ascending season order. -/
def seasonLE (a b : Match) : Prop := a.season ≤ b.season

/-- Descending season order. -/
def seasonGE (a b : Match) : Prop := b.season ≤ a.season

instance : DecidableRel dateLE := fun _ _ => inferInstanceAs (Decidable (_ ≤ _))
instance : DecidableRel dateGE := fun _ _ => inferInstanceAs (Decidable (_ ≤ _))
instance : DecidableRel timeLE := fun _ _ => inferInstanceAs (Decidable (_ ≤ _))
instance : DecidableRel timeGE := fun _ _ => inferInstanceAs (Decidable (_ ≤ _))
instance : DecidableRel seasonLE := fun _ _ => inferInstanceAs (Decidable (_ ≤ _))
instance : DecidableRel seasonGE := fun _ _ => inferInstanceAs (Decidable (_ ≤ _))

instance : IsTotal Match dateLE := ⟨fun x y => le_total x.date y.date⟩
instance : IsTrans Match dateLE := ⟨fun _ _ _ h1 h2 => le_trans h1 h2⟩
instance : IsTotal Match dateGE := ⟨fun x y => le_total y.date x.date⟩
instance : IsTrans Match dateGE := ⟨fun _ _ _ h1 h2 => le_trans h2 h1⟩
instance : IsTotal Match timeLE := ⟨fun x y => le_total (timeKey x) (timeKey y)⟩
instance : IsTrans Match timeLE := ⟨fun _ _ _ h1 h2 => le_trans h1 h2⟩
instance : IsTotal Match timeGE := ⟨fun x y => le_total (timeKey y) (timeKey x)⟩
instance : IsTrans Match timeGE := ⟨fun _ _ _ h1 h2 => le_trans h2 h1⟩
instance : IsTotal Match seasonLE := ⟨fun x y => le_total x.season y.season⟩
instance : IsTrans Match seasonLE := ⟨fun _ _ _ h1 h2 => le_trans h1 h2⟩
instance : IsTotal Match seasonGE := ⟨fun x y => le_total y.season x.season⟩
instance : IsTrans Match seasonGE := ⟨fun _ _ _ h1 h2 => le_trans h2 h1⟩

/-- `MCSRAnalyzer._sort_matches`: Python's `list.sort` is stable, and a stable
sort with `reverse=True` equals a stable sort under the reversed non-strict
key order, so each branch is `insertionSort` (stable) under the corresponding
total preorder.  An unrecognized `sort_by` leaves the list unsorted. -/
def sort_matches (sort_by : String) (sort_descending : Bool)
    (ms : List Match) : List Match :=
  if sort_by = "date" then
    if sort_descending then ms.insertionSort dateGE
    else ms.insertionSort dateLE
  else if sort_by = "time" then
    if sort_descending then ms.insertionSort timeGE
    else ms.insertionSort timeLE
  else if sort_by = "season" then
    if sort_descending then ms.insertionSort seasonGE
    else ms.insertionSort seasonLE
  else ms

/-- `MCSRAnalyzer.filter_matches`: the five filter stages applied in the fixed
order, then the sort.  (`self.matches.copy()` is value-passing here.) -/
def filter_matches (ps : FilterParams) (ms : List Match) : List Match :=
  let filtered := ms
  let filtered := apply_completion_filters ps filtered
  let filtered := apply_time_filters ps filtered
  let filtered := apply_match_type_filters ps filtered
  let filtered := apply_categorical_filters ps filtered
  let filtered := apply_date_filters ps filtered
  sort_matches ps.sort_by ps.sort_descending filtered

/-- The fixed segment vocabulary, `segment_names` in
`get_segment_stats`/`get_split_stats` and `SEGMENT_ORDER` in
`src/src/core/segment_constants.py` (identical lists). -/
def SEGMENT_ORDER : List String :=
  ["nether_enter", "bastion_enter", "fortress_enter", "blind_portal",
   "stronghold_enter", "end_enter", "game_end"]

/-- The `last_segment` computation inside `get_split_stats`: iterate the
segment vocabulary in order and remember the last key present in the record's
segment map. -/
def last_recorded_segment (m : Match) : Option String :=
  (SEGMENT_ORDER.filter fun s => (m.segments.lookup s).isSome).getLast?

/-- The `times` list collected for one segment by
`MCSRAnalyzer.get_segment_stats` (`src/mcsr_stats.py` lines 879-886): the
record's `absolute_time`, except that `game_end` entries of runs the user did
not complete are skipped.  The published stats dict for the segment
(count/best/worst/average/median/std-dev) is a function of this list, and the
segment is published iff this list is non-empty. -/
def collect_segment_times (ms : List Match) (segment : String) : List ℚ :=
  ms.filterMap fun m =>
    match m.segments.lookup segment with
    | some sd =>
        if segment = "game_end" ∧ ¬m.user_completed then none
        else some sd.absolute_time
    | none => none

/-- The `split_times` list collected for one segment by
`MCSRAnalyzer.get_split_stats` (`src/mcsr_stats.py` lines 919-939): like
`collect_segment_times` but on `split_time`, and additionally for a
draw/forfeit record the last segment present in its map contributes
nothing. -/
def collect_split_times (ms : List Match) (segment : String) : List ℚ :=
  ms.filterMap fun m =>
    match m.segments.lookup segment with
    | some sd =>
        if segment = "game_end" ∧ ¬m.user_completed then none
        else if (m.is_draw ∨ m.forfeited) ∧ last_recorded_segment m = some segment
          then none
        else some sd.split_time
    | none => none

/-- `SpeedrunForecaster` (`src/src/utils/speedrun_forecast.py`): the sorted
match list (the Python attribute is `self.matches`; `matches` is a reserved
word in Lean, hence `matchList`), rolling window and target percentile. -/
structure SpeedrunForecaster where
  matchList : List Match
  rolling_window : Nat
  percentile : ℚ

/-- `SpeedrunForecaster.__init__`: sorts the matches chronologically
(`sorted(matches, key=lambda m: m.date)`, a stable ascending sort). -/
def mkForecaster (ms : List Match) (rolling_window : Nat) (percentile : ℚ) :
    SpeedrunForecaster :=
  ⟨ms.insertionSort dateLE, rolling_window, percentile⟩

/-- `SpeedrunForecaster._calculate_rolling_percentiles`: per segment, the
target percentile of the absolute times of the completed, detail-having
matches strictly before this match's date among the first `up_to_index`
matches, truncated to the most recent `rolling_window` of them; a segment is
present only with at least 3 samples. -/
def calculate_rolling_percentiles (f : SpeedrunForecaster) (m : Match)
    (up_to_index : Nat) : List (String × ℚ) :=
  let historical := (f.matchList.take up_to_index).filter fun h =>
    h.user_completed && h.has_detailed_data && decide (h.date < m.date)
  let historical :=
    if f.rolling_window < historical.length then
      historical.drop (historical.length - f.rolling_window)
    else historical
  SEGMENT_ORDER.filterMap fun segment =>
    let segment_times := historical.filterMap fun h =>
      (h.segments.lookup segment).map SegData.absolute_time
    if 3 ≤ segment_times.length then
      some (segment, calculate_percentile segment_times f.percentile)
    else none

/-- `SpeedrunForecaster._get_last_completed_segment`: the last segment of the
vocabulary present in the match's segment map, with its absolute time;
`(None, None)` when the map is empty or holds no vocabulary key. -/
def get_last_completed_segment (m : Match) : Option (String × ℚ) :=
  if m.segments = [] then none
  else
    (SEGMENT_ORDER.filterMap fun seg =>
      (m.segments.lookup seg).map fun sd => (seg, sd.absolute_time)).getLast?

/-- `SpeedrunForecaster._get_historical_split_times`: positive split times of
the given segment from completed, detail-having matches strictly before the
current match's date among the first `up_to_index` matches, truncated to the
most recent `rolling_window`. -/
def get_historical_split_times (f : SpeedrunForecaster) (current_match : Match)
    (up_to_index : Nat) (segment : String) : List ℚ :=
  let split_times := (f.matchList.take up_to_index).filterMap fun h =>
    if h.user_completed && h.has_detailed_data &&
        decide (h.date < current_match.date) then
      match h.segments.lookup segment with
      | some sd => if 0 < sd.split_time then some sd.split_time else none
      | none => none
    else none
  if f.rolling_window < split_times.length then
    split_times.drop (split_times.length - f.rolling_window)
  else split_times

/-- Python `int()` applied to a float: truncation toward zero. -/
def pytrunc (q : ℚ) : ℤ :=
  if 0 ≤ q then ⌊q⌋ else ⌈q⌉

/-- The accumulation loop of `SpeedrunForecaster.calculate_forecast` over the
remaining segments: `first_seg` is `remaining_segments[0]`, and the loop
either adds each segment's contribution or aborts with `None`; at the end the
accumulated forecast is truncated by `int(forecast)`. -/
def forecast_loop (f : SpeedrunForecaster) (m : Match) (up_to_index : Nat)
    (rp : List (String × ℚ)) (current_time : ℚ) (first_seg : String)
    (segs : List String) (forecast : ℚ) : Option ℚ :=
  match segs with
  | [] => some ((pytrunc forecast : ℤ) : ℚ)
  | segment :: rest =>
    match rp.lookup segment with
    | none => none
    | some percentile_abs_time =>
      if segment = first_seg then
        let forecast :=
          if current_time < percentile_abs_time then
            forecast + (percentile_abs_time - current_time)
          else forecast
        forecast_loop f m up_to_index rp current_time first_seg rest forecast
      else
        -- prev_segment_index = SEGMENT_ORDER.index(segment) - 1 ≥ 0
        if 1 ≤ SEGMENT_ORDER.indexOf segment then
          let prev_segment := SEGMENT_ORDER.getD (SEGMENT_ORDER.indexOf segment - 1) ""
          match rp.lookup prev_segment with
          | some prev_pat =>
            let split_time := percentile_abs_time - prev_pat
            let forecast :=
              if 0 < split_time then forecast + split_time else forecast
            forecast_loop f m up_to_index rp current_time first_seg rest forecast
          | none =>
            let split_times := get_historical_split_times f m up_to_index segment
            if split_times ≠ [] then
              forecast_loop f m up_to_index rp current_time first_seg rest
                (forecast + calculate_percentile split_times f.percentile)
            else none
        else none

/-- `SpeedrunForecaster.calculate_forecast`
(`src/src/utils/speedrun_forecast.py` lines 133-227): actual time for
completed runs; otherwise forecast from the last reached segment using
rolling percentiles, `None` on any missing prerequisite (no detail data, no
segments, match not found in the collection, no historical data, nothing
remaining to compute with). -/
def calculate_forecast (f : SpeedrunForecaster) (m : Match) : Option ℚ :=
  if m.user_completed ∧ m.match_time ≠ none then
    m.match_time.map fun t => (t : ℚ)
  else if ¬m.has_detailed_data ∨ m.segments = [] then none
  else
    match f.matchList.findIdx? (fun x => x.id == m.id) with
    | none => none
    | some match_index =>
      let rolling_percentiles := calculate_rolling_percentiles f m match_index
      if rolling_percentiles = [] then none
      else
        match get_last_completed_segment m with
        | none => none
        | some (last_segment, current_time) =>
          let last_segment_index := SEGMENT_ORDER.indexOf last_segment
          let remaining_segments := SEGMENT_ORDER.drop (last_segment_index + 1)
          if remaining_segments = [] then some current_time
          else
            forecast_loop f m match_index rolling_percentiles current_time
              (remaining_segments.headI) remaining_segments current_time

/-! Concrete payloads and records used to witness the theorems below. -/

/-- A well-formed two-player payload: Alice (uuid `u1`) beats Bob (uuid `u2`)
in 600000 ms, no forfeit. -/
def exampleRaw : RawData :=
  { id := some 101, date := some 1700000000, category := some "ANY"
    forfeited := some false, seed := none, seedID := some "s1"
    seedType := some "village", type := some 2, season := some 6
    players := some [⟨some "Alice", some "u1", some 1500, some 12⟩,
                     ⟨some "Bob", some "u2", some 1480, some (-12)⟩]
    result := some ⟨some "u1", some 600000⟩ }

/-- Like `exampleRaw`, but the result carries the winner's uuid and no time. -/
def noTimeRaw : RawData :=
  { exampleRaw with id := some 102, result := some ⟨some "u1", none⟩ }

/-- A payload with every key absent. -/
def emptyRaw : RawData :=
  ⟨none, none, none, none, none, none, none, none, none, none, none⟩

/-- A throwaway record used only as the `Option.getD` default below. -/
def fallbackMatch : Match := mkMatchCore emptyRaw none 0 0 "" false 0

/-- The record built from `exampleRaw` for analyzed user `Alice`. -/
def exampleMatch : Match := (mkMatch exampleRaw (some "Alice")).getD fallbackMatch

/-- The record built from `noTimeRaw` for analyzed user `Alice`. -/
def noTimeMatch : Match := (mkMatch noTimeRaw (some "Alice")).getD fallbackMatch

/-- A draw record whose segment map holds exactly the key `bastion_enter`
(as left by the detail-fetch step, which mutates `segments` in place). -/
def drawSegMatch : Match :=
  { exampleMatch with
      is_draw := true, is_user_win := none, forfeited := false
      match_time := none, user_completed := false
      segments := [("bastion_enter", ⟨300000, 300000⟩)]
      has_detailed_data := true }

/-- The record built from `exampleRaw` for analyzed user `Bob` (a loss). -/
def bobMatch : Match := (mkMatch exampleRaw (some "Bob")).getD fallbackMatch

lemma mkMatch_eq_some {data : RawData} {u : Option String} {m : Match} :
    mkMatch data u = some m ↔
      ∃ i d c ff s, data.id = some i ∧ data.date = some d ∧
        data.category = some c ∧ data.forfeited = some ff ∧
        data.season = some s ∧ m = mkMatchCore data u i d c ff s := by
  cases hid : data.id <;> cases hd : data.date <;> cases hc : data.category <;>
    cases hf : data.forfeited <;> cases hs : data.season <;>
      simp [mkMatch, hid, hd, hc, hf, hs, eq_comm]

lemma mkMatchCore_completion (data : RawData) (u : Option String)
    (i d : Int) (c : String) (ff : Bool) (s : Int) :
    ((mkMatchCore data u i d c ff s).match_time,
      (mkMatchCore data u i d c ff s).user_completed) =
      completionOf (mkMatchCore data u i d c ff s).is_user_win
        (mkMatchCore data u i d c ff s).is_draw ff
        (mkMatchCore data u i d c ff s).player_count
        (mkMatchCore data u i d c ff s).winner_time := rfl

lemma completionOf_eq_specTable (iw : Option Bool) (dr ff : Bool) (pc : Nat)
    (wt : Option Int) :
    completionOf iw dr ff pc wt = specCompletionTable iw dr ff pc wt := by
  cases ff <;> simp [completionOf, specCompletionTable]

lemma completionOf_completed_time (iw : Option Bool) (dr ff : Bool) (pc : Nat)
    (wt : Option Int) (h : (completionOf iw dr ff pc wt).2 = true) :
    (completionOf iw dr ff pc wt).1 = wt := by
  unfold completionOf at *
  repeat' split at h
  all_goals simp_all

/-- C1: for every raw payload the constructor accepts, the derived pair
`(match_time, user_completed)` is exactly the spec's completion table (its
rows checked top to bottom) applied to the record's outcome fields: user won
and not forfeited ↦ `(winner_time, true)`; user won and forfeited ↦
`(winner_time, false)`; user lost ↦ `(null, false)`; draw ↦
`(winner_time, false)`; solo not forfeited ↦ `(winner_time, true)`; solo
forfeited ↦ `(winner_time, false)`; otherwise `(null, false)`. -/
theorem completion_derivation_matches_spec_table (data : RawData)
    (u : Option String) (m : Match) (h : mkMatch data u = some m) :
    (m.match_time, m.user_completed) =
      specCompletionTable m.is_user_win m.is_draw m.forfeited
        m.player_count m.winner_time := by
  obtain ⟨i, d, c, ff, s, _, _, _, _, _, rfl⟩ := mkMatch_eq_some.mp h
  exact (mkMatchCore_completion data u i d c ff s).trans
    (completionOf_eq_specTable _ _ _ _ _)

/-- Witness for C1 at a concrete winning payload. -/
theorem completion_derivation_matches_spec_table_witness :
    mkMatch exampleRaw (some "Alice") = some exampleMatch ∧
      (exampleMatch.match_time, exampleMatch.user_completed) =
        specCompletionTable exampleMatch.is_user_win exampleMatch.is_draw
          exampleMatch.forfeited exampleMatch.player_count
          exampleMatch.winner_time :=
  ⟨by decide, completion_derivation_matches_spec_table exampleRaw
    (some "Alice") exampleMatch (by decide)⟩

/-- C2 counterexample: the payload `noTimeRaw` (the user won, but the raw
result carries no time) produces a record with `user_completed = true` and
`match_time = null`, refuting `user_completed ⇒ match_time is not null`. -/
theorem user_completed_implies_time_cex :
    ¬ ∀ (data : RawData) (u : Option String) (m : Match),
        mkMatch data u = some m → m.user_completed = true →
          m.match_time ≠ none := by
  intro h
  exact h noTimeRaw (some "Alice") noTimeMatch (by decide) (by decide) (by decide)

/-- C2 amended: for every constructed record, `user_completed` implies
`match_time = winner_time`; in particular `match_time` is non-null whenever
the payload's result time is non-null. -/
theorem user_completed_time_eq_winner_time (data : RawData)
    (u : Option String) (m : Match) (h : mkMatch data u = some m)
    (hc : m.user_completed = true) :
    m.match_time = m.winner_time ∧
      ((resultOf data).time ≠ none → m.match_time ≠ none) := by
  obtain ⟨i, d, c, ff, s, _, _, _, _, _, rfl⟩ := mkMatch_eq_some.mp h
  have h1 : (mkMatchCore data u i d c ff s).match_time =
      (mkMatchCore data u i d c ff s).winner_time :=
    completionOf_completed_time _ _ _ _ _ hc
  have h2 : (mkMatchCore data u i d c ff s).winner_time = (resultOf data).time :=
    rfl
  exact ⟨h1, fun hne => by rw [h1, h2]; exact hne⟩

/-- Witness for the amended C2 at a concrete winning payload. -/
theorem user_completed_time_eq_winner_time_witness :
    mkMatch exampleRaw (some "Alice") = some exampleMatch ∧
      exampleMatch.user_completed = true ∧
      exampleMatch.match_time = exampleMatch.winner_time ∧
      ((resultOf exampleRaw).time ≠ none → exampleMatch.match_time ≠ none) := by
  refine ⟨by decide, by decide, ?_⟩
  have h := user_completed_time_eq_winner_time exampleRaw (some "Alice")
    exampleMatch (by decide) (by decide)
  exact h

/-- C8 counterexample: the constructor is not total on partial payloads — a
payload missing the required top-level keys (here: all keys absent) raises
`KeyError` at `data['id']`, modelled as a `none` construction result. -/
theorem construction_never_raises_cex :
    ¬ ∀ (data : RawData) (u : Option String), (mkMatch data u).isSome = true := by
  intro h
  exact absurd (h emptyRaw none) (by decide)

/-- C8 amended: construction never raises provided the five subscript-read
keys (`id`, `date`, `category`, `forfeited`, `season`) are present; every
other absent or partial field (result, seed, players, type, …) falls back to
an explicit null/false/default. -/
theorem construction_total_given_required_keys (data : RawData)
    (u : Option String) (h1 : data.id.isSome = true)
    (h2 : data.date.isSome = true) (h3 : data.category.isSome = true)
    (h4 : data.forfeited.isSome = true) (h5 : data.season.isSome = true) :
    (mkMatch data u).isSome = true := by
  obtain ⟨i, hi⟩ := Option.isSome_iff_exists.mp h1
  obtain ⟨d, hd⟩ := Option.isSome_iff_exists.mp h2
  obtain ⟨c, hc⟩ := Option.isSome_iff_exists.mp h3
  obtain ⟨ff, hff⟩ := Option.isSome_iff_exists.mp h4
  obtain ⟨s, hs⟩ := Option.isSome_iff_exists.mp h5
  simp [mkMatch, hi, hd, hc, hff, hs]

/-- Witness for the amended C8: a payload carrying only the five required
keys (plus optional ones) constructs successfully. -/
theorem construction_total_given_required_keys_witness :
    exampleRaw.id.isSome = true ∧ exampleRaw.date.isSome = true ∧
      exampleRaw.category.isSome = true ∧ exampleRaw.forfeited.isSome = true ∧
      exampleRaw.season.isSome = true ∧ (mkMatch exampleRaw none).isSome = true :=
  ⟨by decide, by decide, by decide, by decide, by decide,
    construction_total_given_required_keys exampleRaw none (by decide)
      (by decide) (by decide) (by decide) (by decide)⟩

/-- C9: `is_user_win` is non-null only when the analyzed user was identified
among the participants with a truthy uuid and the payload's result carried a
truthy winner uuid (Python truthiness: a missing or empty string fails the
guard `if self.user_uuid and winner_uuid`). -/
theorem is_user_win_requires_user_and_winner (data : RawData)
    (u : Option String) (m : Match) (h : mkMatch data u = some m)
    (hw : m.is_user_win.isSome = true) :
    strTruthy m.user_uuid = true ∧ strTruthy (resultOf data).uuid = true := by
  obtain ⟨i, d, c, ff, s, _, _, _, _, _, rfl⟩ := mkMatch_eq_some.mp h
  simp only [mkMatchCore] at hw ⊢
  split at hw
  · simp_all
  · split at hw <;> simp_all

/-- Witness for C9 at a concrete losing payload (Bob lost to Alice, so
`is_user_win = some false` is non-null). -/
theorem is_user_win_requires_user_and_winner_witness :
    mkMatch exampleRaw (some "Bob") = some bobMatch ∧
      bobMatch.is_user_win.isSome = true ∧
      strTruthy bobMatch.user_uuid = true ∧
      strTruthy (resultOf exampleRaw).uuid = true := by
  refine ⟨by decide, by decide, ?_⟩
  exact is_user_win_requires_user_and_winner exampleRaw (some "Bob") bobMatch
    (by decide) (by decide)

lemma foldl_record_request (s : RateLimitTracker) (ts : List Int) :
    ts.foldl (fun s t => s.record_request t) s =
      { s with requests := s.requests ++ ts } := by
  induction ts generalizing s with
  | nil => simp
  | cons t ts ih =>
      rw [List.foldl_cons, ih]
      simp [RateLimitTracker.record_request]

lemma afterRecords_eq (maxR : Nat) (winMin : Int) (ts : List Int) :
    RateLimitTracker.afterRecords maxR winMin ts = ⟨maxR, winMin * 60, ts⟩ := by
  simp [RateLimitTracker.afterRecords, RateLimitTracker.init,
    foldl_record_request]

/-- C3 counterexample: the claim fails at capacity `max_requests = 0`.  After
exactly zero `record()` calls (all of whose timestamps vacuously lie in the
window, and all of which are vacuously older than any later window), the
remaining count 0 is not below the cap 0, so `can_proceed()` stays false
forever and never "returns true again". -/
theorem rate_limiter_window_cex :
    ¬ ∀ (maxR : Nat) (winMin : Int) (ts : List Int) (now now2 : Int),
        ts.length = maxR → (∀ t ∈ ts, now - winMin * 60 ≤ t) →
        ((((RateLimitTracker.afterRecords maxR winMin ts).can_make_request
            now).1 = false) ∧
          ((∀ t ∈ ts, t < now2 - winMin * 60) →
            ((RateLimitTracker.afterRecords maxR winMin ts).can_make_request
              now2).1 = true)) := by
  intro h
  have h2 := (h 0 10 [] 0 0 rfl (by simp)).2 (by simp)
  exact absurd h2 (by decide)

/-- C3 amended: for a tracker with positive capacity `max_requests`, after
exactly `max_requests` calls to `record()` whose timestamps all lie within
the sliding window of `now`, `can_make_request(now)` is false; and at any
clock `now2` at which every recorded timestamp is older than
`now2 - window`, `can_make_request(now2)` is true again. -/
theorem rate_limiter_window (maxR : Nat) (winMin : Int) (ts : List Int)
    (now now2 : Int) (hpos : 0 < maxR) (hlen : ts.length = maxR)
    (hin : ∀ t ∈ ts, now - winMin * 60 ≤ t) :
    ((RateLimitTracker.afterRecords maxR winMin ts).can_make_request
        now).1 = false ∧
      ((∀ t ∈ ts, t < now2 - winMin * 60) →
        ((RateLimitTracker.afterRecords maxR winMin ts).can_make_request
          now2).1 = true) := by
  rw [afterRecords_eq]
  constructor
  · have hkeep : ts.dropWhile (fun t => decide (t < now - winMin * 60)) = ts := by
      cases ts with
      | nil => rfl
      | cons a l =>
          rw [List.dropWhile_cons_of_neg]
          simp only [decide_eq_true_eq, not_lt]
          exact hin a (List.mem_cons_self a l)
    simp [RateLimitTracker.can_make_request, RateLimitTracker.evict, hkeep, hlen]
  · intro h2
    have hdrop : ts.dropWhile (fun t => decide (t < now2 - winMin * 60)) = [] :=
      List.dropWhile_eq_nil_iff.mpr fun x hx => by
        simpa using h2 x hx
    simp [RateLimitTracker.can_make_request, RateLimitTracker.evict, hdrop, hpos]

/-- Witness for the amended C3: capacity 2, window 10 minutes, two requests
at times 5 and 6; at time 10 the tracker refuses, at time 1000 it admits. -/
theorem rate_limiter_window_witness :
    ((RateLimitTracker.afterRecords 2 10 [5, 6]).can_make_request 10).1 =
        false ∧
      ((RateLimitTracker.afterRecords 2 10 [5, 6]).can_make_request 1000).1 =
        true := by
  have h := rate_limiter_window 2 10 [5, 6] 10 1000 (by decide) (by decide)
    (by decide)
  exact ⟨h.1, h.2 (by decide)⟩

lemma sorted_headI_le {l : List ℚ} (h : l.Sorted (· ≤ ·)) {x : ℚ}
    (hx : x ∈ l) : l.headI ≤ x := by
  cases l with
  | nil => simp at hx
  | cons a t =>
      rcases List.mem_cons.mp hx with rfl | hxt
      · simp
      · exact List.rel_of_sorted_cons h x hxt

lemma headI_mem_of_ne_nil {l : List ℚ} (h : l ≠ []) : l.headI ∈ l := by
  cases l with
  | nil => exact absurd rfl h
  | cons a t => exact List.mem_cons_self a t

lemma le_sorted_getLastD {l : List ℚ} (h : l.Sorted (· ≤ ·)) :
    ∀ x ∈ l, x ≤ l.getLastD 0 := by
  induction l with
  | nil => intro x hx; simp at hx
  | cons a t ih =>
      intro x hx
      cases t with
      | nil =>
          rcases List.mem_cons.mp hx with rfl | hxt
          · simp
          · simp at hxt
      | cons b t' =>
          have hg : (a :: b :: t').getLastD 0 = (b :: t').getLastD 0 := by
            simp
          rcases List.mem_cons.mp hx with rfl | hxt
          · have hab : x ≤ b := List.rel_of_sorted_cons h b (by simp)
            have hb : b ≤ (b :: t').getLastD 0 := ih h.of_cons b (by simp)
            rw [hg]; exact le_trans hab hb
          · rw [hg]; exact ih h.of_cons x hxt

lemma getLastD_mem_of_ne_nil {l : List ℚ} (h : l ≠ []) : l.getLastD 0 ∈ l := by
  induction l with
  | nil => exact absurd rfl h
  | cons a t ih =>
      cases t with
      | nil => simp
      | cons b t' =>
          have hg : (a :: b :: t').getLastD 0 = (b :: t').getLastD 0 := by
            simp
          rw [hg]
          exact List.mem_cons_of_mem a (ih (List.cons_ne_nil b t'))

lemma insertionSort_ne_nil {xs : List ℚ} (h : xs ≠ []) :
    xs.insertionSort (· ≤ ·) ≠ [] := by
  intro h0
  have hp := List.perm_insertionSort (· ≤ ·) xs
  rw [h0] at hp
  exact h hp.symm.eq_nil

/-- C7: the percentile function interpolates linearly: `percentile(50,
[1,2,3,4,5]) = 3`; `percentile(0, xs)` is the minimum and `percentile(100,
xs)` the maximum of a non-empty `xs`; and for `0 < p < 100` the result is the
linear interpolation of the sorted list at fractional index
`p/100 * (n-1)`. -/
theorem percentile_interpolation :
    calculate_percentile [1, 2, 3, 4, 5] 50 = 3 ∧
    (∀ xs : List ℚ, xs ≠ [] →
      (calculate_percentile xs 0 ∈ xs ∧
        ∀ x ∈ xs, calculate_percentile xs 0 ≤ x) ∧
      (calculate_percentile xs 100 ∈ xs ∧
        ∀ x ∈ xs, x ≤ calculate_percentile xs 100)) ∧
    (∀ (xs : List ℚ) (p : ℚ), xs ≠ [] → 0 < p → p < 100 →
      calculate_percentile xs p =
        (xs.insertionSort (· ≤ ·)).getD
            ((⌊p / 100 * ((xs.length : ℚ) - 1)⌋).toNat) 0 *
            (1 - (p / 100 * ((xs.length : ℚ) - 1) -
              ((⌊p / 100 * ((xs.length : ℚ) - 1)⌋).toNat : ℚ))) +
          (xs.insertionSort (· ≤ ·)).getD
            (min ((⌊p / 100 * ((xs.length : ℚ) - 1)⌋).toNat + 1)
              (xs.length - 1)) 0 *
            (p / 100 * ((xs.length : ℚ) - 1) -
              ((⌊p / 100 * ((xs.length : ℚ) - 1)⌋).toNat : ℚ))) := by
  refine ⟨?_, ?_, ?_⟩
  · norm_num [calculate_percentile, List.insertionSort, List.orderedInsert]
    simp only [show Int.toNat 2 = 2 from rfl]
    norm_num [List.getElem_cons_succ, List.getElem_cons_zero]
    simp
  · intro xs hne
    have hs := List.sorted_insertionSort (· ≤ ·) xs
    have hne' := insertionSort_ne_nil hne
    have e0 : calculate_percentile xs 0 = (xs.insertionSort (· ≤ ·)).headI := by
      simp [calculate_percentile, hne]
    have e100 : calculate_percentile xs 100 =
        (xs.insertionSort (· ≤ ·)).getLastD 0 := by
      norm_num [calculate_percentile, hne]
    constructor
    · constructor
      · rw [e0]
        exact (List.mem_insertionSort (· ≤ ·)).mp (headI_mem_of_ne_nil hne')
      · intro x hx
        rw [e0]
        exact sorted_headI_le hs ((List.mem_insertionSort (· ≤ ·)).mpr hx)
    · constructor
      · rw [e100]
        exact (List.mem_insertionSort (· ≤ ·)).mp (getLastD_mem_of_ne_nil hne')
      · intro x hx
        rw [e100]
        exact le_sorted_getLastD hs x ((List.mem_insertionSort (· ≤ ·)).mpr hx)
  · intro xs p hne hp0 hp1
    have hlen : (xs.insertionSort (· ≤ ·)).length = xs.length :=
      (List.perm_insertionSort (· ≤ ·) xs).length_eq
    simp only [calculate_percentile]
    rw [if_neg hne, if_neg (not_le.mpr hp0), if_neg (not_le.mpr hp1)]
    rw [hlen]
    split
    · rename_i hidx
      rw [← hidx]
      ring
    · rfl

/-- Witness for C7 at concrete inputs `[2, 1]`, `p = 50`. -/
theorem percentile_interpolation_witness :
    (calculate_percentile [2, 1] 0 ∈ ([2, 1] : List ℚ) ∧
      ∀ x ∈ ([2, 1] : List ℚ), calculate_percentile [2, 1] 0 ≤ x) ∧
    calculate_percentile [2, 1] 50 =
      (List.insertionSort (· ≤ ·) [2, 1]).getD
          ((⌊(50 : ℚ) / 100 * (((2 : Nat) : ℚ) - 1)⌋).toNat) 0 *
          (1 - ((50 : ℚ) / 100 * (((2 : Nat) : ℚ) - 1) -
            ((⌊(50 : ℚ) / 100 * (((2 : Nat) : ℚ) - 1)⌋).toNat : ℚ))) +
        (List.insertionSort (· ≤ ·) [2, 1]).getD
          (min ((⌊(50 : ℚ) / 100 * (((2 : Nat) : ℚ) - 1)⌋).toNat + 1)
            ((2 : Nat) - 1)) 0 *
          ((50 : ℚ) / 100 * (((2 : Nat) : ℚ) - 1) -
            ((⌊(50 : ℚ) / 100 * (((2 : Nat) : ℚ) - 1)⌋).toNat : ℚ)) :=
  ⟨(percentile_interpolation.2.1 [2, 1] (by decide)).1,
    percentile_interpolation.2.2 [2, 1] 50 (by decide) (by decide) (by decide)⟩

/-- A list transformer that is extensionally a single `List.filter`. -/
def IsFilterStage (F : List Match → List Match) : Prop :=
  ∃ p : Match → Bool, ∀ l, F l = l.filter p

lemma condFilter_isFilterStage (b : Bool) (p : Match → Bool) :
    IsFilterStage (condFilter b p) := by
  cases b
  · exact ⟨fun _ => true, fun l => by simp [condFilter]⟩
  · exact ⟨p, fun l => by simp [condFilter]⟩

lemma optFilter_isFilterStage {β : Type} (o : Option β) (p : β → Match → Bool) :
    IsFilterStage (optFilter o p) := by
  cases o with
  | none => exact ⟨fun _ => true, fun l => by simp [optFilter]⟩
  | some v => exact ⟨p v, fun l => by simp [optFilter]⟩

lemma IsFilterStage.comp {F G : List Match → List Match}
    (hF : IsFilterStage F) (hG : IsFilterStage G) :
    IsFilterStage fun l => G (F l) := by
  obtain ⟨p, hp⟩ := hF
  obtain ⟨q, hq⟩ := hG
  refine ⟨fun m => q m && p m, fun l => ?_⟩
  show G (F l) = _
  rw [hp, hq, List.filter_filter]

lemma apply_completion_filters_isFilterStage (ps : FilterParams) :
    IsFilterStage (apply_completion_filters ps) :=
  (((((condFilter_isFilterStage _ _).comp
    (optFilter_isFilterStage _ _)).comp
    (condFilter_isFilterStage _ _)).comp
    (condFilter_isFilterStage _ _)).comp
    (condFilter_isFilterStage _ _)).comp
    (condFilter_isFilterStage _ _)

lemma apply_time_filters_isFilterStage (ps : FilterParams) :
    IsFilterStage (apply_time_filters ps) :=
  ((condFilter_isFilterStage _ _).comp
    (optFilter_isFilterStage _ _)).comp
    (optFilter_isFilterStage _ _)

lemma apply_match_type_filters_isFilterStage (ps : FilterParams) :
    IsFilterStage (apply_match_type_filters ps) :=
  ((((condFilter_isFilterStage _ _).comp
    (optFilter_isFilterStage _ _)).comp
    (optFilter_isFilterStage _ _)).comp
    (condFilter_isFilterStage _ _)).comp
    (optFilter_isFilterStage _ _)

lemma apply_categorical_filters_isFilterStage (ps : FilterParams) :
    IsFilterStage (apply_categorical_filters ps) :=
  (optFilter_isFilterStage _ _).comp (optFilter_isFilterStage _ _)

lemma apply_date_filters_isFilterStage (ps : FilterParams) :
    IsFilterStage (apply_date_filters ps) :=
  (optFilter_isFilterStage _ _).comp (optFilter_isFilterStage _ _)

lemma pipeline_isFilterStage (ps : FilterParams) :
    IsFilterStage fun l =>
      apply_date_filters ps (apply_categorical_filters ps
        (apply_match_type_filters ps (apply_time_filters ps
          (apply_completion_filters ps l)))) :=
  ((((apply_completion_filters_isFilterStage ps).comp
    (apply_time_filters_isFilterStage ps)).comp
    (apply_match_type_filters_isFilterStage ps)).comp
    (apply_categorical_filters_isFilterStage ps)).comp
    (apply_date_filters_isFilterStage ps)

lemma mem_sort_matches {sb : String} {d : Bool} {l : List Match} {a : Match} :
    a ∈ sort_matches sb d l ↔ a ∈ l := by
  unfold sort_matches
  split_ifs <;> simp

lemma sort_matches_idem (sb : String) (d : Bool) (l : List Match) :
    sort_matches sb d (sort_matches sb d l) = sort_matches sb d l := by
  unfold sort_matches
  split_ifs <;>
    first
      | rfl
      | exact List.Sorted.insertionSort_eq (List.sorted_insertionSort _ _)

/-- C4: the filter pipeline is idempotent — applying `filter_matches` twice
with the same predicate assignment (including the sort key and direction)
yields the same list as applying it once. -/
theorem filter_matches_idempotent (ps : FilterParams) (R : List Match) :
    filter_matches ps (filter_matches ps R) = filter_matches ps R := by
  obtain ⟨p, hp⟩ := pipeline_isFilterStage ps
  have hfm : ∀ l, filter_matches ps l =
      sort_matches ps.sort_by ps.sort_descending (l.filter p) := by
    intro l
    show sort_matches ps.sort_by ps.sort_descending _ =
      sort_matches ps.sort_by ps.sort_descending (l.filter p)
    rw [← hp l]
  rw [hfm R, hfm (sort_matches ps.sort_by ps.sort_descending (R.filter p))]
  have hsub : (sort_matches ps.sort_by ps.sort_descending
      (R.filter p)).filter p =
      sort_matches ps.sort_by ps.sort_descending (R.filter p) := by
    apply List.filter_eq_self.mpr
    intro a ha
    exact List.of_mem_filter (mem_sort_matches.mp ha)
  rw [hsub]
  exact sort_matches_idem _ _ _

/-- C5 counterexample: with `sort_descending = true`, sorting by time maps
null `match_time` to `+inf` and then reverses, so the null-time record comes
*first*, not last: on `[exampleMatch, noTimeMatch]` the descending time sort
places `noTimeMatch` (null time) before `exampleMatch` (600000 ms). -/
theorem sort_time_nulls_last_cex :
    ¬ ∀ (R : List Match) (d : Bool),
        List.Pairwise (fun a b => a.match_time = none → b.match_time = none)
          (sort_matches "time" d R) := by
  intro h
  exact absurd (h [exampleMatch, noTimeMatch] true) (by decide)

/-- C5 amended: sorting by time with `descending = false` puts every
null-`match_time` record after all non-null ones (nulls sort last); with
`descending = true` the nulls instead all come first. -/
theorem sort_time_null_position (R : List Match) :
    List.Pairwise (fun a b => a.match_time = none → b.match_time = none)
      (sort_matches "time" false R) ∧
    List.Pairwise (fun a b => b.match_time = none → a.match_time = none)
      (sort_matches "time" true R) := by
  have hkey : ∀ m : Match, m.match_time = none ↔ timeKey m = ⊤ := by
    intro m
    cases hm : m.match_time <;> simp [timeKey, hm]
  constructor
  · have hs : (R.insertionSort timeLE).Sorted timeLE :=
      List.sorted_insertionSort timeLE R
    show List.Pairwise _ (R.insertionSort timeLE)
    refine hs.imp ?_
    intro a b hab hnone
    have ha : timeKey a = ⊤ := (hkey a).mp hnone
    exact (hkey b).mpr (top_le_iff.mp (ha ▸ hab))
  · have hs : (R.insertionSort timeGE).Sorted timeGE :=
      List.sorted_insertionSort timeGE R
    show List.Pairwise _ (R.insertionSort timeGE)
    refine hs.imp ?_
    intro a b hab hnone
    have hb : timeKey b = ⊤ := (hkey b).mp hnone
    exact (hkey a).mpr (top_le_iff.mp (hb ▸ hab))

/-- C6: a draw record whose segment map holds exactly the key
`bastion_enter` contributes nothing to `bastion_enter`'s split-time
aggregate (last-segment exclusion) — the collected split-time list over any
collection containing it is as if the record were absent — while its
`bastion_enter` absolute time still enters the absolute-time aggregate. -/
theorem draw_last_segment_exclusion (pre post : List Match) (m : Match)
    (sd : SegData) (hdraw : m.is_draw = true)
    (hseg : m.segments = [("bastion_enter", sd)]) :
    collect_split_times (pre ++ m :: post) "bastion_enter" =
      collect_split_times pre "bastion_enter" ++
        collect_split_times post "bastion_enter" ∧
    collect_segment_times (pre ++ m :: post) "bastion_enter" =
      collect_segment_times pre "bastion_enter" ++
        sd.absolute_time :: collect_segment_times post "bastion_enter" := by
  have hlast : last_recorded_segment m = some "bastion_enter" := by
    simp [last_recorded_segment, hseg, SEGMENT_ORDER, List.lookup]
  constructor
  · simp [collect_split_times, List.filterMap_append, hseg, hdraw, hlast,
      List.lookup]
  · simp [collect_segment_times, List.filterMap_append, hseg, List.lookup]

/-- Witness for C6 at the concrete record `drawSegMatch` alone in the
collection. -/
theorem draw_last_segment_exclusion_witness :
    drawSegMatch.is_draw = true ∧
    drawSegMatch.segments = [("bastion_enter", ⟨300000, 300000⟩)] ∧
    collect_split_times [drawSegMatch] "bastion_enter" = [] ∧
    collect_segment_times [drawSegMatch] "bastion_enter" = [(300000 : ℚ)] := by
  have h := draw_last_segment_exclusion [] [] drawSegMatch ⟨300000, 300000⟩
    (by decide) (by decide)
  refine ⟨by decide, by decide, ?_, ?_⟩
  · simpa [collect_split_times] using h.1
  · simpa [collect_segment_times] using h.2

/-- C10: for a match that is not a completed run with a known time, if its id
matches no match in the forecaster's collection, `calculate_forecast`
returns nothing. -/
theorem forecast_none_for_unknown_incomplete (ms : List Match) (w : Nat)
    (pct : ℚ) (m : Match)
    (hnc : ¬(m.user_completed = true ∧ m.match_time ≠ none))
    (hid : ∀ x ∈ ms, x.id ≠ m.id) :
    calculate_forecast (mkForecaster ms w pct) m = none := by
  unfold calculate_forecast
  rw [if_neg hnc]
  by_cases h2 : ¬m.has_detailed_data ∨ m.segments = []
  · rw [if_pos h2]
  · rw [if_neg h2]
    have hf : (mkForecaster ms w pct).matchList.findIdx?
        (fun x => x.id == m.id) = none := by
      apply List.findIdx?_eq_none_iff.mpr
      intro x hx
      have hxm : x ∈ ms := by
        simpa [mkForecaster] using (List.mem_insertionSort dateLE).mp
          (by simpa [mkForecaster] using hx)
      simpa using hid x hxm
    rw [hf]

/-- Witness for C10: the incomplete record `drawSegMatch` against an empty
forecaster collection. -/
theorem forecast_none_for_unknown_incomplete_witness :
    ¬(drawSegMatch.user_completed = true ∧ drawSegMatch.match_time ≠ none) ∧
    calculate_forecast (mkForecaster [] 20 50) drawSegMatch = none := by
  refine ⟨by decide, ?_⟩
  exact forecast_none_for_unknown_incomplete [] 20 50 drawSegMatch (by decide)
    (by simp)

end MCSR
